import Mathlib

/-!
Shallow embedding of the iroh-ping repository (src/lib.rs, src/main.rs).

The repository implements a minimal ping/pong protocol over iroh QUIC
connections.  The transport layer (iroh endpoint, connections, streams) is
external; we model each suspension/failure point of the two core operations
(`Ping::ping`, `Ping::accept`) by an environment record that fixes the outcome
of every transport call, and the operations as pure functions from that
environment to a result, the updated metrics registry, and a trace of the
transport-visible events in program order.  Byte strings are lists of byte
values (`List Nat`), wall-clock instants are nanosecond counts (`Nat`), and
durations in whole milliseconds are nanoseconds divided by 10^6 (`as_millis`
truncates).  Panics of `assert_eq!` on payload mismatch are modelled as the
protocol-violation error of the spec's taxonomy, since they abort the
operation without incrementing any metric and surface to the caller/dispatcher.
-/

/-- Byte values of a string literal, as in Rust byte-string literals. -/
def strBytes (s : String) : List Nat := s.toList.map Char.toNat

def alpnStr : String := "iroh/ping/0"

/-- ALPN constant from src/lib.rs line 17: `pub const ALPN: &[u8] = b"iroh/ping/0";`. -/
def ALPN : List Nat := strBytes alpnStr

def pingStr : String := "PING"

def pongStr : String := "PONG"

def byeStr : String := "bye!"

/-- Request payload `b"PING"`. -/
def PINGbytes : List Nat := strBytes pingStr

/-- Response payload `b"PONG"`. -/
def PONGbytes : List Nat := strBytes pongStr

/-- Close-reason bytes `b"bye!"`. -/
def BYEbytes : List Nat := strBytes byeStr

/-- Error taxonomy of the spec (section 7); the anyhow/AcceptError values of the
code are classified by the transport call that produced them, and the
`assert_eq!` payload panics as `protocolViolation`. -/
inductive PErr where
  | connectionError
  | streamError
  | writeError
  | readError
  | protocolViolation
  | peerIdentityError
  deriving Repr, DecidableEq

/-- Metrics registry (src/lib.rs `struct Metrics`): two unsigned counters,
derived `Default` zeroes both. -/
structure Metrics where
  pings_sent : Nat
  pings_recv : Nat
  deriving Repr, DecidableEq

/-- Derived `Default` for `Metrics`: both counters 0. -/
def Metrics.default : Metrics := { pings_sent := 0, pings_recv := 0 }

/-- The `Ping` struct: holds the shared metrics registry. -/
structure Ping where
  metrics : Metrics
  deriving Repr, DecidableEq

/-- `Ping::new()`: fresh instance with default (zeroed) metrics. -/
def Ping.new : Ping := { metrics := Metrics.default }

/-- `impl Default for Ping` delegates to `new`. -/
def Ping.defaultImpl : Ping := Ping.new

/-- Transport-visible events of one operation, in program order.  Parameters
record the argument the code passes to the transport call. -/
inductive Event where
  | connect (alpn : List Nat)
  | openBi
  | writeBytes (bs : List Nat)
  | finishSend
  | readToEnd (limit : Nat)
  | connClose (code : Nat) (reason : List Nat)
  | endpointDrain
  | incPingsSent
  | remoteNodeId
  | acceptBi
  | connClosedObserved
  | incPingsRecv
  deriving Repr, DecidableEq

/-- Environment for one `Ping::ping` call: outcome of each fallible transport
call, the bytes the peer put on the stream (delivered by a successful
`read_to_end`), and the wall clock.  `read_to_end(4)` succeeds with the whole
stream content when it is at most 4 bytes and fails (TooLong) otherwise;
`readIoOk = false` is a transport-level read failure.  The clock fields give
the nanosecond instants at the recorded start, at completion of the response
read, and at the final `Instant::now()` after close and drain. -/
structure PingEnv where
  connectOk : Bool
  openBiOk : Bool
  writeOk : Bool
  finishOk : Bool
  readIoOk : Bool
  recvContent : List Nat
  startTimeNs : Nat
  readDoneTimeNs : Nat
  endTimeNs : Nat
  deriving Repr, DecidableEq

/-- Result of one `ping` call: the returned value (duration in whole
milliseconds on success), the metrics registry after the call, and the trace. -/
structure PingResult where
  result : Except PErr Nat
  metrics : Metrics
  trace : List Event
  deriving Repr

/-- Shallow embedding of `Ping::ping` (src/lib.rs lines 46-82).  Program order:
record start; connect with ALPN; open_bi; write_all(b"PING"); finish;
read_to_end(4); assert response == b"PONG"; conn.close(0, b"bye!");
endpoint.close().await; metrics.pings_sent.inc(); return
Duration::from_millis(now.duration_since(start).as_millis()). -/
def Ping.ping (p : Ping) (env : PingEnv) : PingResult :=
  let m := p.metrics
  if env.connectOk then
    if env.openBiOk then
      if env.writeOk then
        if env.finishOk then
          if env.readIoOk then
            if env.recvContent.length ≤ 4 then
              if env.recvContent = PONGbytes then
                { result := .ok ((env.endTimeNs - env.startTimeNs) / 1000000)
                  metrics := { m with pings_sent := m.pings_sent + 1 }
                  trace := [.connect ALPN, .openBi, .writeBytes PINGbytes,
                            .finishSend, .readToEnd 4, .connClose 0 BYEbytes,
                            .endpointDrain, .incPingsSent] }
              else
                { result := .error .protocolViolation
                  metrics := m
                  trace := [.connect ALPN, .openBi, .writeBytes PINGbytes,
                            .finishSend, .readToEnd 4] }
            else
              { result := .error .readError
                metrics := m
                trace := [.connect ALPN, .openBi, .writeBytes PINGbytes,
                          .finishSend, .readToEnd 4] }
          else
            { result := .error .readError
              metrics := m
              trace := [.connect ALPN, .openBi, .writeBytes PINGbytes,
                        .finishSend, .readToEnd 4] }
        else
          { result := .error .writeError
            metrics := m
            trace := [.connect ALPN, .openBi, .writeBytes PINGbytes, .finishSend] }
      else
        { result := .error .writeError
          metrics := m
          trace := [.connect ALPN, .openBi, .writeBytes PINGbytes] }
    else
      { result := .error .streamError
        metrics := m
        trace := [.connect ALPN, .openBi] }
  else
    { result := .error .connectionError
      metrics := m
      trace := [.connect ALPN] }

/-- Environment for one `Ping::accept` call, analogous to `PingEnv`:
`recvContent` is the bytes the connecting peer put on the accepted stream.
`connection.closed().await` always completes (it only waits), so it has no
failure flag. -/
structure AcceptEnv where
  remoteIdOk : Bool
  acceptBiOk : Bool
  readIoOk : Bool
  recvContent : List Nat
  writeOk : Bool
  finishOk : Bool
  deriving Repr, DecidableEq

/-- Result of one `accept` call. -/
structure AcceptResult where
  result : Except PErr Unit
  metrics : Metrics
  trace : List Event
  deriving Repr

/-- Shallow embedding of `Ping::accept` (src/lib.rs lines 90-121).  Program
order: remote_node_id; accept_bi; read_to_end(4); assert req == b"PING";
write_all(b"PONG"); finish; connection.closed().await;
metrics.pings_recv.inc(); Ok(()). -/
def Ping.accept (p : Ping) (env : AcceptEnv) : AcceptResult :=
  let m := p.metrics
  if env.remoteIdOk then
    if env.acceptBiOk then
      if env.readIoOk then
        if env.recvContent.length ≤ 4 then
          if env.recvContent = PINGbytes then
            if env.writeOk then
              if env.finishOk then
                { result := .ok ()
                  metrics := { m with pings_recv := m.pings_recv + 1 }
                  trace := [.remoteNodeId, .acceptBi, .readToEnd 4,
                            .writeBytes PONGbytes, .finishSend,
                            .connClosedObserved, .incPingsRecv] }
              else
                { result := .error .writeError
                  metrics := m
                  trace := [.remoteNodeId, .acceptBi, .readToEnd 4,
                            .writeBytes PONGbytes, .finishSend] }
            else
              { result := .error .writeError
                metrics := m
                trace := [.remoteNodeId, .acceptBi, .readToEnd 4,
                          .writeBytes PONGbytes] }
          else
            { result := .error .protocolViolation
              metrics := m
              trace := [.remoteNodeId, .acceptBi, .readToEnd 4] }
        else
          { result := .error .readError
            metrics := m
            trace := [.remoteNodeId, .acceptBi, .readToEnd 4] }
      else
        { result := .error .readError
          metrics := m
          trace := [.remoteNodeId, .acceptBi, .readToEnd 4] }
    else
      { result := .error .streamError
        metrics := m
        trace := [.remoteNodeId, .acceptBi] }
  else
    { result := .error .peerIdentityError
      metrics := m
      trace := [.remoteNodeId] }

/-- All fallible steps of `ping` succeed and the response is exactly PONG. -/
def pingOk (env : PingEnv) : Bool :=
  env.connectOk && env.openBiOk && env.writeOk && env.finishOk &&
    env.readIoOk && decide (env.recvContent = PONGbytes)

/-- All fallible steps of `accept` succeed and the request is exactly PING. -/
def acceptOk (env : AcceptEnv) : Bool :=
  env.remoteIdOk && env.acceptBiOk && env.readIoOk &&
    decide (env.recvContent = PINGbytes) && env.writeOk && env.finishOk

/-- The events of `tr` strictly before the first occurrence of `e`. -/
def eventsBefore (tr : List Event) (e : Event) : List Event :=
  tr.takeWhile (fun x => !(x == e))

/-- `a` occurs strictly before (the first occurrence of) `b` whenever `b`
occurs in `tr`. -/
def occursBefore (tr : List Event) (a b : Event) : Bool :=
  !(tr.contains b) || (eventsBefore tr b).contains a

/-- The payload byte strings written to streams during `tr`, in order. -/
def writeEvents (tr : List Event) : List (List Nat) :=
  tr.filterMap (fun e =>
    match e with
    | .writeBytes bs => some bs
    | _ => none)

/-- `is_client` from src/main.rs lines 16-34: one pass over the argument list
setting two flags, error when both are set, otherwise the client flag. -/
def clientServerErrMsg : String := "This process cannot be both the client and the server."

def clientArg : String := "client"

def serverArg : String := "server"

def is_client (args : List String) : Except String Bool :=
  let flags := args.foldl
    (fun (st : Bool × Bool) arg =>
      (st.1 || arg == clientArg, st.2 || arg == serverArg))
    (false, false)
  if flags.1 && flags.2 then
    Except.error clientServerErrMsg
  else
    Except.ok flags.1


deriving instance DecidableEq for Except

/-- Whether an `Except` value is `ok`. -/
def exceptIsOk {e a : Type} : Except e a → Bool
  | .ok _ => true
  | .error _ => false

/-- Method `Ping::metrics(&self)`: returns the instance's registry itself
(the shared handle), with no modification. -/
def Ping.metricsHandle (p : Ping) : Metrics := p.metrics

/-- One operation on a shared `Ping` instance, with its environment. -/
inductive Op where
  | pingOp (env : PingEnv)
  | acceptOp (env : AcceptEnv)

/-- Effect of one operation on the shared metrics registry. -/
def applyOp (m : Metrics) : Op → Metrics
  | .pingOp env => (Ping.ping { metrics := m } env).metrics
  | .acceptOp env => (Ping.accept { metrics := m } env).metrics

/-- Metrics registry after a sequence of ping/accept operations on one
instance. -/
def runOps (m : Metrics) : List Op → Metrics
  | [] => m
  | op :: rest => runOps (applyOp m op) rest

theorem pong_length : PONGbytes.length = 4 := by decide

theorem ping_length : PINGbytes.length = 4 := by decide

theorem ping_success_eq (p : Ping) (env : PingEnv) (h : pingOk env = true) :
    Ping.ping p env =
      { result := .ok ((env.endTimeNs - env.startTimeNs) / 1000000)
        metrics := { p.metrics with pings_sent := p.metrics.pings_sent + 1 }
        trace := [.connect ALPN, .openBi, .writeBytes PINGbytes, .finishSend,
                  .readToEnd 4, .connClose 0 BYEbytes, .endpointDrain,
                  .incPingsSent] } := by
  obtain ⟨c, o, w, f, r, content, t0, t1, t2⟩ := env
  simp only [pingOk, Bool.and_eq_true, decide_eq_true_eq] at h
  obtain ⟨⟨⟨⟨⟨hc, ho⟩, hw⟩, hf⟩, hr⟩, hcontent⟩ := h
  subst hc; subst ho; subst hw; subst hf; subst hr; subst hcontent
  simp [Ping.ping, pong_length]

theorem ping_metrics_eq (p : Ping) (env : PingEnv) :
    (Ping.ping p env).metrics =
      (if pingOk env then { p.metrics with pings_sent := p.metrics.pings_sent + 1 }
       else p.metrics) := by
  obtain ⟨c, o, w, f, r, content, t0, t1, t2⟩ := env
  by_cases hcontent : content = PONGbytes
  · subst hcontent
    cases c <;> cases o <;> cases w <;> cases f <;> cases r <;>
      simp [Ping.ping, pingOk, pong_length]
  · by_cases hl : content.length ≤ 4 <;>
      cases c <;> cases o <;> cases w <;> cases f <;> cases r <;>
        simp [Ping.ping, pingOk, hl, hcontent]

theorem ping_result_ok_eq (p : Ping) (env : PingEnv) :
    exceptIsOk (Ping.ping p env).result = pingOk env := by
  obtain ⟨c, o, w, f, r, content, t0, t1, t2⟩ := env
  by_cases hcontent : content = PONGbytes
  · subst hcontent
    cases c <;> cases o <;> cases w <;> cases f <;> cases r <;>
      simp [Ping.ping, pingOk, pong_length, exceptIsOk]
  · by_cases hl : content.length ≤ 4 <;>
      cases c <;> cases o <;> cases w <;> cases f <;> cases r <;>
        simp [Ping.ping, pingOk, hl, hcontent, exceptIsOk]

theorem ping_trace_nodup (p : Ping) (env : PingEnv) :
    (Ping.ping p env).trace.Nodup := by
  simp only [Ping.ping]
  split_ifs <;> dsimp only <;> decide

theorem accept_success_eq (p : Ping) (env : AcceptEnv) (h : acceptOk env = true) :
    Ping.accept p env =
      { result := .ok ()
        metrics := { p.metrics with pings_recv := p.metrics.pings_recv + 1 }
        trace := [.remoteNodeId, .acceptBi, .readToEnd 4,
                  .writeBytes PONGbytes, .finishSend, .connClosedObserved,
                  .incPingsRecv] } := by
  obtain ⟨ri, ab, r, content, w, f⟩ := env
  simp only [acceptOk, Bool.and_eq_true, decide_eq_true_eq] at h
  obtain ⟨⟨⟨⟨⟨hri, hab⟩, hr⟩, hcontent⟩, hw⟩, hf⟩ := h
  subst hri; subst hab; subst hr; subst hcontent; subst hw; subst hf
  simp [Ping.accept, ping_length]

theorem accept_metrics_eq (p : Ping) (env : AcceptEnv) :
    (Ping.accept p env).metrics =
      (if acceptOk env then { p.metrics with pings_recv := p.metrics.pings_recv + 1 }
       else p.metrics) := by
  obtain ⟨ri, ab, r, content, w, f⟩ := env
  by_cases hcontent : content = PINGbytes
  · subst hcontent
    cases ri <;> cases ab <;> cases r <;> cases w <;> cases f <;>
      simp [Ping.accept, acceptOk, ping_length]
  · by_cases hl : content.length ≤ 4 <;>
      cases ri <;> cases ab <;> cases r <;> cases w <;> cases f <;>
        simp [Ping.accept, acceptOk, hl, hcontent]

theorem accept_result_ok_eq (p : Ping) (env : AcceptEnv) :
    exceptIsOk (Ping.accept p env).result = acceptOk env := by
  obtain ⟨ri, ab, r, content, w, f⟩ := env
  by_cases hcontent : content = PINGbytes
  · subst hcontent
    cases ri <;> cases ab <;> cases r <;> cases w <;> cases f <;>
      simp [Ping.accept, acceptOk, ping_length, exceptIsOk]
  · by_cases hl : content.length ≤ 4 <;>
      cases ri <;> cases ab <;> cases r <;> cases w <;> cases f <;>
        simp [Ping.accept, acceptOk, hl, hcontent, exceptIsOk]

theorem accept_trace_nodup (p : Ping) (env : AcceptEnv) :
    (Ping.accept p env).trace.Nodup := by
  simp only [Ping.accept]
  split_ifs <;> dsimp only <;> decide

theorem accept_trace_inc (p : Ping) (env : AcceptEnv) :
    (Ping.accept p env).trace.contains Event.incPingsRecv = acceptOk env := by
  obtain ⟨ri, ab, r, content, w, f⟩ := env
  by_cases hcontent : content = PINGbytes
  · subst hcontent
    cases ri <;> cases ab <;> cases r <;> cases w <;> cases f <;>
      (simp [Ping.accept, acceptOk, ping_length]; try decide)
  · by_cases hl : content.length ≤ 4 <;>
      cases ri <;> cases ab <;> cases r <;> cases w <;> cases f <;>
        (simp [Ping.accept, acceptOk, hl, hcontent]; try decide)

def envC1 : PingEnv :=
  { connectOk := true, openBiOk := true, writeOk := true, finishOk := true,
    readIoOk := true, recvContent := [78, 79], startTimeNs := 0,
    readDoneTimeNs := 0, endTimeNs := 0 }

/-- C1: in every execution of `Ping::ping` in which the bytes read from the
stream's receive side are anything other than exactly the 4 bytes "PONG",
`ping` fails with the protocol-violation error surfaced to its caller, and
`pings_sent` is not incremented. -/
theorem C1_non_pong_fails_no_increment (p : Ping) (env : PingEnv)
    (hc : env.connectOk = true) (ho : env.openBiOk = true)
    (hw : env.writeOk = true) (hf : env.finishOk = true)
    (hr : env.readIoOk = true) (hlen : env.recvContent.length ≤ 4)
    (hne : env.recvContent ≠ PONGbytes) :
    (Ping.ping p env).result = Except.error PErr.protocolViolation ∧
      (Ping.ping p env).metrics.pings_sent = p.metrics.pings_sent := by
  simp [Ping.ping, hc, ho, hw, hf, hr, hlen, hne]

theorem C1_non_pong_fails_no_increment_witness :
    (Ping.ping Ping.new envC1).result = Except.error PErr.protocolViolation ∧
      (Ping.ping Ping.new envC1).metrics.pings_sent = Ping.new.metrics.pings_sent :=
  C1_non_pong_fails_no_increment Ping.new envC1 rfl rfl rfl rfl rfl
    (by decide) (by decide)

def envC2 : AcceptEnv :=
  { remoteIdOk := true, acceptBiOk := true, readIoOk := true,
    recvContent := [80, 73, 78], writeOk := true, finishOk := true }

/-- C2: in every execution of `Ping::accept` in which the bytes read from the
accepted stream are anything other than exactly the 4 bytes "PING", `accept`
fails with the protocol-violation error surfaced to the dispatcher, and
`pings_recv` is not incremented. -/
theorem C2_non_ping_fails_no_increment (p : Ping) (env : AcceptEnv)
    (hri : env.remoteIdOk = true) (hab : env.acceptBiOk = true)
    (hr : env.readIoOk = true) (hlen : env.recvContent.length ≤ 4)
    (hne : env.recvContent ≠ PINGbytes) :
    (Ping.accept p env).result = Except.error PErr.protocolViolation ∧
      (Ping.accept p env).metrics.pings_recv = p.metrics.pings_recv := by
  simp [Ping.accept, hri, hab, hr, hlen, hne]

theorem C2_non_ping_fails_no_increment_witness :
    (Ping.accept Ping.new envC2).result = Except.error PErr.protocolViolation ∧
      (Ping.accept Ping.new envC2).metrics.pings_recv = Ping.new.metrics.pings_recv :=
  C2_non_ping_fails_no_increment Ping.new envC2 rfl rfl rfl (by decide) (by decide)

/-- C3: one `ping` call succeeds exactly when every fallible step (connect,
open stream, write request, signal end-of-output, read and validate the
response) succeeds; `pings_sent` is incremented by exactly 1 on success and is
unchanged on any failure; `pings_recv` is never touched; and no step is ever
retried (every transport event occurs at most once in the trace). -/
theorem C3_sent_increment_iff_all_steps_succeed (p : Ping) (env : PingEnv) :
    exceptIsOk (Ping.ping p env).result = pingOk env ∧
    (Ping.ping p env).metrics.pings_sent =
      (if pingOk env then p.metrics.pings_sent + 1 else p.metrics.pings_sent) ∧
    (Ping.ping p env).metrics.pings_recv = p.metrics.pings_recv ∧
    (Ping.ping p env).trace.Nodup := by
  refine ⟨ping_result_ok_eq p env, ?_, ?_, ping_trace_nodup p env⟩ <;>
    rw [ping_metrics_eq] <;> by_cases h : pingOk env <;> simp [h]

/-- C4: in every execution of `accept`, the increment of `pings_recv` is
ordered strictly after the event observing that the remote closed the
connection, and the counter grows exactly when that increment event is in the
trace. -/
theorem C4_recv_increment_after_closure (p : Ping) (env : AcceptEnv) :
    occursBefore (Ping.accept p env).trace Event.connClosedObserved
      Event.incPingsRecv = true ∧
    (Ping.accept p env).metrics.pings_recv =
      p.metrics.pings_recv +
        (if (Ping.accept p env).trace.contains Event.incPingsRecv then 1 else 0) := by
  constructor
  · unfold Ping.accept
    split_ifs <;> dsimp only <;> decide
  · rw [accept_metrics_eq p env, accept_trace_inc p env]
    by_cases h : acceptOk env <;> simp [h]

def envC5 : PingEnv :=
  { connectOk := true, openBiOk := true, writeOk := true, finishOk := true,
    readIoOk := true, recvContent := [80, 79, 78, 71], startTimeNs := 0,
    readDoneTimeNs := 100000000, endTimeNs := 600000000 }

/-- C5 counterexample: with a monotone wall clock on which the response read
completes 100 ms after the recorded start while the subsequent close and
endpoint-drain steps finish at 600 ms, the successful `ping` returns 600 ms
(final now minus start), not the 100 ms elapsed up to completion of the read:
the time spent in close and drain is included in the returned value. -/
theorem C5_read_elapsed_counterexample :
    pingOk envC5 = true ∧
    envC5.startTimeNs ≤ envC5.readDoneTimeNs ∧
    envC5.readDoneTimeNs ≤ envC5.endTimeNs ∧
    (envC5.readDoneTimeNs - envC5.startTimeNs) / 1000000 = 100 ∧
    (Ping.ping Ping.new envC5).result = Except.ok 600 ∧
    (Ping.ping Ping.new envC5).result ≠
      Except.ok ((envC5.readDoneTimeNs - envC5.startTimeNs) / 1000000) := by
  refine ⟨by decide, by decide, by decide, by decide, rfl, by decide⟩

/-- C5 amended: for every successful execution of `ping`, the returned value
equals the wall-clock time elapsed from the recorded start time to the final
now sampled at the point of return, after the connection-close and
endpoint-drain steps (so their time is included), expressed in whole
milliseconds rounded down. -/
theorem C5_duration_measured_to_return (p : Ping) (env : PingEnv)
    (h : pingOk env = true) :
    (Ping.ping p env).result =
      Except.ok ((env.endTimeNs - env.startTimeNs) / 1000000) := by
  rw [ping_success_eq p env h]

theorem C5_duration_measured_to_return_witness :
    (Ping.ping Ping.new envC5).result =
      Except.ok ((envC5.endTimeNs - envC5.startTimeNs) / 1000000) :=
  C5_duration_measured_to_return Ping.new envC5 (by decide)

def envC6p : PingEnv :=
  { connectOk := true, openBiOk := true, writeOk := true, finishOk := true,
    readIoOk := true, recvContent := [80, 79, 78, 71], startTimeNs := 0,
    readDoneTimeNs := 1000000, endTimeNs := 2000000 }

def envC6a : AcceptEnv :=
  { remoteIdOk := true, acceptBiOk := true, readIoOk := true,
    recvContent := [80, 73, 78, 71], writeOk := true, finishOk := true }

/-- C6: in every full (successful) exchange the Initiator connects with the
ALPN bytes "iroh/ping/0", writes exactly the 4 bytes "PING" as its only
payload, signals end-of-output after the write and before the read, and the
Responder writes exactly the 4 bytes "PONG" as its only payload and then
signals end-of-output; no other payload bytes appear in either trace. -/
theorem C6_wire_contract (p q : Ping) (env : PingEnv) (env2 : AcceptEnv)
    (h1 : pingOk env = true) (h2 : acceptOk env2 = true) :
    ALPN = [105, 114, 111, 104, 47, 112, 105, 110, 103, 47, 48] ∧
    PINGbytes = [80, 73, 78, 71] ∧
    PONGbytes = [80, 79, 78, 71] ∧
    (Ping.ping p env).trace.head? = some (Event.connect ALPN) ∧
    writeEvents (Ping.ping p env).trace = [PINGbytes] ∧
    occursBefore (Ping.ping p env).trace (Event.writeBytes PINGbytes)
      Event.finishSend = true ∧
    occursBefore (Ping.ping p env).trace Event.finishSend
      (Event.readToEnd 4) = true ∧
    Event.finishSend ∈ (Ping.ping p env).trace ∧
    Event.readToEnd 4 ∈ (Ping.ping p env).trace ∧
    writeEvents (Ping.accept q env2).trace = [PONGbytes] ∧
    occursBefore (Ping.accept q env2).trace (Event.writeBytes PONGbytes)
      Event.finishSend = true ∧
    Event.finishSend ∈ (Ping.accept q env2).trace := by
  rw [ping_success_eq p env h1, accept_success_eq q env2 h2]
  dsimp only
  decide

theorem C6_wire_contract_witness :
    writeEvents (Ping.ping Ping.new envC6p).trace = [PINGbytes] ∧
      writeEvents (Ping.accept Ping.new envC6a).trace = [PONGbytes] :=
  ⟨(C6_wire_contract Ping.new Ping.new envC6p envC6a (by decide) (by decide)).2.2.2.2.1,
   (C6_wire_contract Ping.new Ping.new envC6p envC6a
      (by decide) (by decide)).2.2.2.2.2.2.2.2.2.1⟩

theorem applyOp_mono (m : Metrics) (op : Op) :
    m.pings_sent ≤ (applyOp m op).pings_sent ∧
    m.pings_recv ≤ (applyOp m op).pings_recv := by
  cases op with
  | pingOp env =>
    simp only [applyOp]
    rw [ping_metrics_eq]
    by_cases h : pingOk env <;> simp [h]
  | acceptOp env =>
    simp only [applyOp]
    rw [accept_metrics_eq]
    by_cases h : acceptOk env <;> simp [h]

theorem runOps_mono (m : Metrics) (ops : List Op) :
    m.pings_sent ≤ (runOps m ops).pings_sent ∧
    m.pings_recv ≤ (runOps m ops).pings_recv := by
  induction ops generalizing m with
  | nil => exact ⟨le_refl _, le_refl _⟩
  | cons op rest ih =>
    have h1 := applyOp_mono m op
    have h2 := ih (applyOp m op)
    exact ⟨le_trans h1.1 h2.1, le_trans h1.2 h2.2⟩

/-- C7: the counters start at 0 on a fresh instance; one `ping` adds exactly 1
to `pings_sent` when it succeeds and 0 otherwise and never touches
`pings_recv`; one `accept` adds exactly 1 to `pings_recv` when it succeeds and
0 otherwise and never touches `pings_sent`; and over every sequence of ping
and accept operations on one instance both counters are monotonically
non-decreasing (never reset or decremented). -/
theorem C7_counters_monotone :
    Ping.new.metrics.pings_sent = 0 ∧ Ping.new.metrics.pings_recv = 0 ∧
    (∀ (m : Metrics) (env : PingEnv),
      (Ping.ping { metrics := m } env).metrics.pings_sent =
          m.pings_sent + (if pingOk env then 1 else 0) ∧
        (Ping.ping { metrics := m } env).metrics.pings_recv = m.pings_recv) ∧
    (∀ (m : Metrics) (env : AcceptEnv),
      (Ping.accept { metrics := m } env).metrics.pings_recv =
          m.pings_recv + (if acceptOk env then 1 else 0) ∧
        (Ping.accept { metrics := m } env).metrics.pings_sent = m.pings_sent) ∧
    (∀ (m : Metrics) (ops : List Op),
      m.pings_sent ≤ (runOps m ops).pings_sent ∧
        m.pings_recv ≤ (runOps m ops).pings_recv) := by
  refine ⟨rfl, rfl, ?_, ?_, ?_⟩
  · intro m env
    rw [ping_metrics_eq]
    by_cases h : pingOk env <;> simp [h]
  · intro m env
    rw [accept_metrics_eq]
    by_cases h : acceptOk env <;> simp [h]
  · intro m ops
    exact runOps_mono m ops

def envC8 : PingEnv :=
  { connectOk := true, openBiOk := true, writeOk := true, finishOk := true,
    readIoOk := true, recvContent := [80, 79, 78, 71], startTimeNs := 0,
    readDoneTimeNs := 0, endTimeNs := 0 }

/-- C8 counterexample: in a concrete successful execution of `ping` both the
increment event and the endpoint-drain event occur, but the increment of
`pings_sent` does not precede the endpoint-drain step: the code drains the
endpoint first and increments afterwards. -/
theorem C8_increment_before_drain_counterexample :
    pingOk envC8 = true ∧
    Event.incPingsSent ∈ (Ping.ping Ping.new envC8).trace ∧
    Event.endpointDrain ∈ (Ping.ping Ping.new envC8).trace ∧
    occursBefore (Ping.ping Ping.new envC8).trace Event.incPingsSent
      Event.endpointDrain = false := by
  decide

/-- C8 amended: in every successful execution of `ping` the increment of
`pings_sent` occurs after the response has been read and validated, and also
after the connection-close and endpoint flush/drain steps: the implementation
orders read, then close, then drain, then increment. -/
theorem C8_increment_after_drain (p : Ping) (env : PingEnv)
    (h : pingOk env = true) :
    Event.incPingsSent ∈ (Ping.ping p env).trace ∧
    occursBefore (Ping.ping p env).trace (Event.readToEnd 4)
      Event.incPingsSent = true ∧
    occursBefore (Ping.ping p env).trace Event.endpointDrain
      Event.incPingsSent = true := by
  rw [ping_success_eq p env h]
  dsimp only
  decide

theorem C8_increment_after_drain_witness :
    Event.incPingsSent ∈ (Ping.ping Ping.new envC8).trace ∧
    occursBefore (Ping.ping Ping.new envC8).trace (Event.readToEnd 4)
      Event.incPingsSent = true ∧
    occursBefore (Ping.ping Ping.new envC8).trace Event.endpointDrain
      Event.incPingsSent = true :=
  C8_increment_after_drain Ping.new envC8 (by decide)

/-- C9: `Ping::new` always succeeds and yields an instance whose two counters
are zero (the registry is exactly the default registry, and the `Default`
impl delegates to `new`), and the `metrics()` accessor returns the instance's
own live registry unchanged, with no side effect on the counters. -/
theorem C9_new_zeroed_metrics_shared :
    Ping.new.metrics.pings_sent = 0 ∧ Ping.new.metrics.pings_recv = 0 ∧
    Ping.new.metrics = Metrics.default ∧ Ping.defaultImpl = Ping.new ∧
    (∀ p : Ping, Ping.metricsHandle p = p.metrics) :=
  ⟨rfl, rfl, rfl, rfl, fun _ => rfl⟩

theorem isClientFold (args : List String) (a b : Bool) :
    args.foldl
      (fun (st : Bool × Bool) arg =>
        (st.1 || arg == clientArg, st.2 || arg == serverArg)) (a, b) =
      (a || args.any (fun s => s == clientArg),
       b || args.any (fun s => s == serverArg)) := by
  induction args generalizing a b with
  | nil => simp
  | cons x xs ih => simp [List.foldl_cons, ih, Bool.or_assoc]

theorem any_beq_eq_mem (s : String) (args : List String) :
    args.any (fun x => x == s) = decide (s ∈ args) := by
  by_cases h : s ∈ args
  · simp [h, List.any_beq']
  · simp only [decide_eq_false h, List.any_eq_false, beq_iff_eq]
    intro x hx hxs
    exact h (hxs ▸ hx)

/-- C10: `is_client` returns an error exactly when the argument list contains
both the literal "client" and the literal "server"; otherwise it returns
`true` exactly when some argument equals "client"; in particular the empty
argument list yields `false` (the process defaults to the server role). -/
theorem C10_is_client_spec (args : List String) :
    is_client args =
      (if clientArg ∈ args ∧ serverArg ∈ args
       then Except.error clientServerErrMsg
       else Except.ok (decide (clientArg ∈ args))) ∧
    is_client [] = Except.ok false := by
  refine ⟨?_, rfl⟩
  by_cases hc : clientArg ∈ args <;> by_cases hs : serverArg ∈ args <;>
    simp [is_client, isClientFold, any_beq_eq_mem, hc, hs]
